import Mathlib

/-!
Verification of the benchmarking core of `ufe_abe` (src/main.rs), a wgpu
memory-transfer benchmark.  The durable core consists of the size-schedule
generators (`get_default_sizes`, `get_power_two_sizes`), the statistics
aggregator (`get_min_max_avg`, the bandwidth derivation in
`add_measurement`), and the timed trial runner (`execute_gpu` plus the trial
loop in `run`).

Modelling conventions:
* `usize` sizes and `u64` timestamps are natural numbers, with wrapping made
  explicit by `% 2 ^ 64` where the source performs `u64` subtraction.
* Durations (`std::time::Duration`) are natural numbers of nanoseconds.
* `f32` quantities that only undergo exact-in-principle arithmetic are
  idealised as rationals; the one operation that can produce a non-finite
  value (division, in the mean and the bandwidth) is modelled by the `F32`
  type below, which carries infinities and NaN with IEEE-754 semantics.
* The asynchronous wgpu environment of one `execute_gpu` call (whether each
  `map_async` completion signal reports success, what the host monotonic
  timer reads at the points the code samples it, what the GPU timestamp
  query returns, and what bytes the download produces) is an explicit
  `GpuEnv` record; `execute_gpu` is a pure function of it.
-/

/-- Idealised `f32`: a rational payload plus the non-finite values.  Signed
zero is not modelled (it is irrelevant to the program's uses). -/
inductive F32 where
  | finite (q : ℚ)
  | inf
  | neginf
  | nan
deriving DecidableEq

/-- IEEE-754 division on `F32` (sign of zero ignored): a finite nonzero
numerator divided by zero gives a signed infinity, `0 / 0` and any operation
on NaN gives NaN. -/
def F32.div : F32 → F32 → F32
  | .finite a, .finite b =>
      if b = 0 then (if 0 < a then .inf else if a < 0 then .neginf else .nan)
      else .finite (a / b)
  | .finite _, .inf => .finite 0
  | .finite _, .neginf => .finite 0
  | .inf, .finite b => if 0 ≤ b then .inf else .neginf
  | .neginf, .finite b => if 0 ≤ b then .neginf else .inf
  | _, _ => .nan

/-- IEEE-754 multiplication on `F32` (sign of zero ignored): `∞ * 0` is NaN,
`∞ * x` follows the sign of `x`, NaN is absorbing. -/
def F32.mul : F32 → F32 → F32
  | .finite a, .finite b => .finite (a * b)
  | .finite a, .inf => if 0 < a then .inf else if a < 0 then .neginf else .nan
  | .inf, .finite b => if 0 < b then .inf else if b < 0 then .neginf else .nan
  | .finite a, .neginf => if 0 < a then .neginf else if a < 0 then .inf else .nan
  | .neginf, .finite b => if 0 < b then .neginf else if b < 0 then .inf else .nan
  | .inf, .inf => .inf
  | .inf, .neginf => .neginf
  | .neginf, .inf => .neginf
  | .neginf, .neginf => .inf
  | _, _ => .nan

/-- Whether an `F32` value is finite (neither an infinity nor NaN). -/
def F32.isFinite : F32 → Bool
  | .finite _ => true
  | _ => false

/-- The step increment chosen by the piecewise schedule at cursor `n`
(src/main.rs lines 38-52: six ascending thresholds select the step). -/
def next_step (n : ℕ) : ℕ :=
  if n < 20480 then 1024
  else if n < 51200 then 2048
  else if n < 102400 then 10240
  else if n < 1126400 then 102400
  else if n < 16855040 then 1048576
  else if n < 33632256 then 2097152
  else 4194304

/-- The `while next_size <= 67_186_688` loop of `get_default_sizes`
(src/main.rs lines 36-53), with an explicit fuel argument to make the
recursion structural.  `get_default_sizes_aux_fuel_ge` below shows the fuel
used in `get_default_sizes` is beyond the loop's natural termination point,
so the embedding computes exactly what the unbounded source loop computes. -/
def get_default_sizes_aux : ℕ → ℕ → List ℕ
  | 0, _ => []
  | fuel + 1, n =>
      if n ≤ 67186688 then n :: get_default_sizes_aux fuel (n + next_step n) else []

/-- `get_default_sizes` (src/main.rs lines 33-56): the piecewise size
schedule, starting at 1024. -/
def get_default_sizes : List ℕ := get_default_sizes_aux 100000 1024

/-- `2.0_f32.powi(k as i32) as usize` (src/main.rs line 60) for an exponent
`k : u32`.  For `k ≤ 63` the `f32` power of two is exact and fits in
`usize`, giving `2 ^ k`; for `64 ≤ k < 2^31` the value (exact up to
`k ≤ 127`, `+∞` beyond) exceeds `usize::MAX`, and Rust's saturating
float-to-int cast yields `2 ^ 64 - 1`; for `k ≥ 2^31` the `u32 → i32` cast
makes the exponent negative, the power is below 1, and the cast floors it
to 0. -/
def powi_to_usize (k : ℕ) : ℕ :=
  if k < 2 ^ 31 then min (2 ^ k) (2 ^ 64 - 1) else 0

/-- `get_power_two_sizes` (src/main.rs lines 58-62): `(2..=max_power)` mapped
through the `f32` power and the saturating cast.  For `max_power < 2` the
Rust range is empty, matched here by the truncated subtraction. -/
def get_power_two_sizes (max_power : ℕ) : List ℕ :=
  (List.range' 2 (max_power + 1 - 2)).map powi_to_usize

/-- `Duration::as_secs_f32() * 1000.0` for a duration of `n` nanoseconds:
milliseconds as an exact rational. -/
def ns_to_ms (n : ℕ) : ℚ := (n : ℚ) / 1000000

/-- `get_min_max_avg` (src/main.rs lines 64-79): min and max of the
durations (defaulting to zero on an empty slice, as `unwrap_or` does),
in milliseconds, and the mean `sum / len` as an `f32` division — the single
place a non-finite value can arise (`0.0 / 0` on the empty slice). -/
def get_min_max_avg (values : List ℕ) : ℚ × ℚ × F32 :=
  let sum := ns_to_ms values.sum
  let mn := ns_to_ms (values.min?.getD 0)
  let mx := ns_to_ms (values.max?.getD 0)
  (mn, mx, F32.div (F32.finite sum) (F32.finite (values.length : ℚ)))

/-- `data_size as f32 / 1024.0 / 1024.0` (src/main.rs line 100). -/
def data_size_mb (data_size : ℕ) : ℚ := (data_size : ℚ) / 1024 / 1024

/-- The bandwidth computed by `add_measurement` (src/main.rs line 101):
`data_size_mb / avg * 1000.0`, with `avg` the third component of
`get_min_max_avg`. -/
def bandwidth (data_size : ℕ) (timings : List ℕ) : F32 :=
  F32.mul
    (F32.div (F32.finite (data_size_mb data_size)) (get_min_max_avg timings).2.2)
    (F32.finite 1000)

/-- The `Configuration` CLI struct (src/main.rs lines 17-31). -/
structure Configuration where
  end_power : ℕ
  tries : ℕ
  verify : Bool
deriving DecidableEq

/-- The schedule selected by `run` (src/main.rs lines 145-146): the call is
`get_default_sizes()`; the `get_power_two_sizes(config.end_power)` line is
commented out, so no field of the configuration is consulted. -/
def data_sizes_of (_c : Configuration) : List ℕ := get_default_sizes

/-- `expected_sum` for one size/iteration (src/main.rs line 159):
`iteration * data_size`. -/
def expected_sum (iteration data_size : ℕ) : ℕ := iteration * data_size

/-- The asynchronous environment observed by one `execute_gpu` call.  Each
`_ok` flag tells whether the corresponding `map_async` completion signal
delivered `Some(Ok(()))`; the `_elapsed` fields are the readings (in
nanoseconds) the host monotonic timer would deliver at the exact source
points where `start.elapsed()` is (or, for the GPU/GPU phase, would be)
sampled; `ts_start`/`ts_end` are the two `u64` GPU timestamps resolved into
the timing buffer; `download_data` is the byte content of the mapped
download buffer on success. -/
structure GpuEnv where
  upload_ok : Bool
  upload_elapsed : ℕ
  gpu_ok : Bool
  ts_start : ℕ
  ts_end : ℕ
  gpu_elapsed : ℕ
  download_ok : Bool
  download_elapsed : ℕ
  download_data : List ℕ
deriving DecidableEq

/-- Upload phase result (src/main.rs lines 219-237): whether or not the
completion signal succeeded, the block ends with `start.elapsed()`, so the
recorded duration is the host elapsed time in both branches. -/
def upload_time (env : GpuEnv) : ℕ := env.upload_elapsed

/-- GPU/GPU phase result (src/main.rs lines 251-278): on success the
recorded duration is `Duration::from_nanos(data.end - data.start)` — the
difference of the two GPU timestamps, wrapping `u64` subtraction (the
`start.elapsed()` alternative is commented out); on failure it is
`Duration::default()`, i.e. zero. -/
def gpu_gpu_time (env : GpuEnv) : ℕ :=
  if env.gpu_ok then (env.ts_end % 2 ^ 64 + 2 ^ 64 - env.ts_start % 2 ^ 64) % 2 ^ 64
  else 0

/-- Download phase result (src/main.rs lines 280-309): `end_time` starts at
zero and is set to `start.elapsed()` only inside the success branch, so a
failed completion signal leaves it zero. -/
def download_time (env : GpuEnv) : ℕ :=
  if env.download_ok then env.download_elapsed else 0

/-- The verification reduction (src/main.rs lines 298-301): the sum of the
downloaded bytes as unsigned integers. -/
def verify_total (data : List ℕ) : ℕ := data.sum

/-- `execute_gpu` (src/main.rs lines 193-311), as a function of its
asynchronous environment: returns the three phase durations
`[upload, gpu_gpu, download]`, or `none` when the `assert_eq!` on the
verification sum panics (which happens exactly when the download completion
succeeded, verification is enabled, and the byte sum differs from
`expected_sum`). -/
def execute_gpu (env : GpuEnv) (expected : ℕ) (verify : Bool) : Option (List ℕ) :=
  if env.download_ok && verify && !(verify_total env.download_data == expected)
  then none
  else some [upload_time env, gpu_gpu_time env, download_time env]

/-- The per-size trial loop of `run` (src/main.rs lines 158-174): one
`GpuEnv` per try, the three phase durations pushed onto the three `times`
vectors; a verification panic aborts the whole run (`none`). -/
def run_trials (envs : List GpuEnv) (expected : ℕ) (verify : Bool) :
    Option (List ℕ × List ℕ × List ℕ) :=
  match envs with
  | [] => some ([], [], [])
  | e :: rest =>
      match execute_gpu e expected verify with
      | none => none
      | some t =>
          match run_trials rest expected verify with
          | none => none
          | some (us, gs, ds) => some (t.getD 0 0 :: us, t.getD 1 0 :: gs, t.getD 2 0 :: ds)

/-- The mean in milliseconds computed at src/main.rs line 78:
`sum / values.len()`, with `sum` already converted to milliseconds. -/
def mean_ms (values : List ℕ) : ℚ := ns_to_ms values.sum / values.length

/-- An environment for a fully successful trial: every completion signal
succeeds, the host timer reads 1000000 ns for the upload block and
800000 ns for the download block, and the GPU timestamps are 500000 ns
apart. -/
def good_env : GpuEnv :=
  { upload_ok := true, upload_elapsed := 1000000, gpu_ok := true, ts_start := 0,
    ts_end := 500000, gpu_elapsed := 600000, download_ok := true,
    download_elapsed := 800000, download_data := [] }

/-- A trial whose download completion signal reports failure. -/
def failed_download_env : GpuEnv := { good_env with download_ok := false }

/-- A trial whose upload completion signal reports failure, with the host
timer reading 5 ns at the end of the upload block. -/
def failed_upload_env : GpuEnv := { good_env with upload_ok := false, upload_elapsed := 5 }

/-- Ten trials, the fifth of which suffers a download completion failure. -/
def c1_envs : List GpuEnv :=
  List.replicate 4 good_env ++ failed_download_env :: List.replicate 5 good_env

/-- An environment whose download succeeds and maps the given bytes. -/
def mk_download_env (data : List ℕ) : GpuEnv :=
  { upload_ok := true, upload_elapsed := 1000, gpu_ok := true, ts_start := 0,
    ts_end := 2000, gpu_elapsed := 2500, download_ok := true,
    download_elapsed := 3000, download_data := data }

/-- Executable strict-increase check for a list of naturals; bridged to
`List.Chain' (· < ·)` by `strictly_increasing_iff`. -/
def strictly_increasing : List ℕ → Bool
  | [] => true
  | [_] => true
  | a :: b :: t => decide (a < b) && strictly_increasing (b :: t)

/-! ### Helper lemmas -/

/-- Every step of the piecewise schedule is at least 1024. -/
theorem next_step_pos (n : ℕ) : 1024 ≤ next_step n := by
  unfold next_step
  repeat' split
  all_goals omega

/-- One extra unit of fuel does not change `get_default_sizes_aux` once the
fuel already covers the loop's natural termination point. -/
theorem get_default_sizes_aux_fuel_succ :
    ∀ (fuel n : ℕ), 67186688 < n + 1024 * fuel →
      get_default_sizes_aux fuel n = get_default_sizes_aux (fuel + 1) n := by
  intro fuel
  induction fuel with
  | zero =>
      intro n h
      simp only [get_default_sizes_aux]
      rw [if_neg (by omega)]
  | succ f ih =>
      intro n h
      rw [show get_default_sizes_aux (f + 1) n =
            (if n ≤ 67186688 then n :: get_default_sizes_aux f (n + next_step n) else [])
          from rfl,
        show get_default_sizes_aux (f + 1 + 1) n =
            (if n ≤ 67186688 then n :: get_default_sizes_aux (f + 1) (n + next_step n) else [])
          from rfl]
      split
      · have hstep := next_step_pos n
        rw [ih (n + next_step n) (by omega)]
      · rfl

/-- `get_default_sizes_aux` is fuel-insensitive beyond the natural
termination point of the source's `while` loop, so the fuel chosen in
`get_default_sizes` is immaterial: the embedding computes the loop's
actual output. -/
theorem get_default_sizes_aux_fuel_ge :
    ∀ (k fuel n : ℕ), 67186688 < n + 1024 * fuel →
      get_default_sizes_aux (fuel + k) n = get_default_sizes_aux fuel n := by
  intro k
  induction k with
  | zero => intro fuel n _; rfl
  | succ k ih =>
      intro fuel n h
      have h2 : 67186688 < n + 1024 * (fuel + k) := by omega
      calc get_default_sizes_aux (fuel + (k + 1)) n
          = get_default_sizes_aux ((fuel + k) + 1) n := by rw [Nat.add_assoc]
        _ = get_default_sizes_aux (fuel + k) n :=
            (get_default_sizes_aux_fuel_succ (fuel + k) n h2).symm
        _ = get_default_sizes_aux fuel n := ih fuel n h

/-- A list of naturals all bounded below by `m` sums to at least
`length * m`. -/
theorem length_mul_le_sum (l : List ℕ) (m : ℕ) (h : ∀ x ∈ l, m ≤ x) :
    l.length * m ≤ l.sum := by
  induction l with
  | nil => simp
  | cons a t ih =>
      have ha := h a (List.mem_cons_self a t)
      have ht := ih fun x hx => h x (List.mem_cons_of_mem a hx)
      simp only [List.length_cons, List.sum_cons, Nat.succ_mul]
      omega

/-- A list of naturals all bounded above by `m` sums to at most
`length * m`. -/
theorem sum_le_length_mul (l : List ℕ) (m : ℕ) (h : ∀ x ∈ l, x ≤ m) :
    l.sum ≤ l.length * m := by
  induction l with
  | nil => simp
  | cons a t ih =>
      have ha := h a (List.mem_cons_self a t)
      have ht := ih fun x hx => h x (List.mem_cons_of_mem a hx)
      simp only [List.length_cons, List.sum_cons, Nat.succ_mul]
      omega

/-- Setting position `i` of a list exchanges the old entry for the new one
in the sum. -/
theorem sum_set_add_getD (l : List ℕ) (i v : ℕ) (h : i < l.length) :
    (l.set i v).sum + l.getD i 0 = l.sum + v := by
  induction l generalizing i with
  | nil => simp at h
  | cons a t ih =>
      cases i with
      | zero => simp [List.getD]; omega
      | succ n =>
          simp only [List.set, List.sum_cons, List.getD_cons_succ]
          have := ih n (by simpa using h)
          omega

/-- `getD` on a replicated list inside bounds returns the replicated
element. -/
theorem replicate_getD (n a i : ℕ) (h : i < n) : (List.replicate n a).getD i 0 = a := by
  induction n generalizing i with
  | zero => omega
  | succ m ih =>
      cases i with
      | zero => rfl
      | succ j =>
          simp only [List.replicate, List.getD_cons_succ]
          exact ih j (by omega)

/-- On a non-empty duration list the mean component of `get_min_max_avg`
is the finite rational `mean_ms`. -/
theorem get_min_max_avg_nonempty (l : List ℕ) (h : l ≠ []) :
    (get_min_max_avg l).2.2 = F32.finite (mean_ms l) := by
  have hlen : (l.length : ℚ) ≠ 0 := by
    have : l.length ≠ 0 := fun h0 => h (List.length_eq_zero.mp h0)
    exact_mod_cast this
  simp [get_min_max_avg, F32.div, hlen, mean_ms]

/-- The executable strict-increase check agrees with `List.Chain' (· < ·)`. -/
theorem strictly_increasing_iff :
    ∀ l : List ℕ, strictly_increasing l = true ↔ List.Chain' (· < ·) l := by
  intro l
  induction l with
  | nil => simp [strictly_increasing]
  | cons a t ih =>
      cases t with
      | nil => simp [strictly_increasing]
      | cons b t2 =>
          simp only [strictly_increasing, Bool.and_eq_true, decide_eq_true_eq,
            List.chain'_cons, ih]

/-- Strict increase of the power-of-two schedule at each exponent bound up
to 63, checked exhaustively. -/
theorem power_two_chain_aux :
    ∀ mp : Fin 64, strictly_increasing (get_power_two_sizes mp.val) = true := by
  decide

/-! ### Claim theorems -/

/-- C4: the piecewise size schedule `get_default_sizes` is non-empty,
strictly increasing, and every element is at most the ceiling bound
67,186,688 bytes.  (Determinism is immediate: the schedule is a closed
pure definition, mirroring the source function, which reads no state.) -/
theorem c4_default_schedule_invariants :
    0 < get_default_sizes.length ∧
    List.Chain' (· < ·) get_default_sizes ∧
    get_default_sizes.all (fun x => decide (x ≤ 67186688)) = true :=
  ⟨by decide, (strictly_increasing_iff get_default_sizes).mp (by decide), by decide⟩

/-- C5: the elements of the piecewise schedule that are at most 25,000 are
exactly `[1024, 2048, ..., 20480, 22528, 24576]` — step 1024 up to 20480,
then step 2048. -/
theorem c5_schedule_prefix_25000 :
    get_default_sizes.filter (fun x => decide (x ≤ 25000)) =
      [1024, 2048, 3072, 4096, 5120, 6144, 7168, 8192, 9216, 10240, 11264,
       12288, 13312, 14336, 15360, 16384, 17408, 18432, 19456, 20480, 22528, 24576] := by
  decide

/-- C8 counterexample: the power-of-two schedule is not strictly increasing
for every configured bound.  At `max_power = 65` the saturating `f32 → usize`
cast clips both `2^64` and `2^65` to `usize::MAX = 2^64 - 1`, so the last
two elements are equal. -/
theorem c8_power_two_counterexample :
    strictly_increasing (get_power_two_sizes 65) = false ∧
    (get_power_two_sizes 65).getD 62 0 = 18446744073709551615 ∧
    (get_power_two_sizes 65).getD 63 0 = 18446744073709551615 := by
  refine ⟨by decide, by decide, by decide⟩

/-- C8 (amended): the power-of-two schedule emits the empty sequence when
`max_power < 2`; for exponents 2..=4 it is exactly `[4, 8, 16]`; for any
bound `max_power ≤ 63` (so that every `f32` power of two fits `usize` and
the cast is exact) it is strictly increasing, and each emitted element is
exactly `2 ^ k`. -/
theorem c8_power_two_amended :
    get_power_two_sizes 4 = [4, 8, 16] ∧
    (∀ mp : ℕ, mp < 2 → get_power_two_sizes mp = []) ∧
    (∀ mp : ℕ, mp ≤ 63 → List.Chain' (· < ·) (get_power_two_sizes mp)) ∧
    (∀ k : ℕ, 2 ≤ k → k ≤ 63 → powi_to_usize k = 2 ^ k) := by
  refine ⟨by decide, ?_, ?_, ?_⟩
  · intro mp h
    interval_cases mp <;> rfl
  · intro mp h
    exact (strictly_increasing_iff _).mp (power_two_chain_aux ⟨mp, by omega⟩)
  · intro k h2 h63
    unfold powi_to_usize
    rw [if_pos (by omega)]
    have hle : (2:ℕ) ^ k ≤ 2 ^ 63 := Nat.pow_le_pow_right (by norm_num) h63
    have h64 : (2:ℕ) ^ 63 < 2 ^ 64 - 1 := by norm_num
    omega

/-- C8 witness: the amended theorem instantiated at `max_power = 1`
(empty), `max_power = 10` (strictly increasing), and exponent 5. -/
theorem c8_power_two_amended_witness :
    get_power_two_sizes 1 = [] ∧
    List.Chain' (· < ·) (get_power_two_sizes 10) ∧
    powi_to_usize 5 = 2 ^ 5 :=
  ⟨c8_power_two_amended.2.1 1 (by decide),
   c8_power_two_amended.2.2.1 10 (by decide),
   c8_power_two_amended.2.2.2 5 (by decide) (by decide)⟩

/-- C9: the sequence of sizes actually swept is independent of the
configured `end_power`: `run` always calls `get_default_sizes()` (the
power-of-two call is commented out), so two configurations differing only
in `end_power` select identical schedules. -/
theorem c9_schedule_independent_of_end_power
    (c1 c2 : Configuration) (_ht : c1.tries = c2.tries) (_hv : c1.verify = c2.verify) :
    data_sizes_of c1 = data_sizes_of c2 := rfl

/-- C9 witness: two configurations with `end_power` 25 and 30 and the same
remaining fields sweep the same sizes. -/
theorem c9_schedule_independent_of_end_power_witness :
    data_sizes_of ⟨25, 50, false⟩ = data_sizes_of ⟨30, 50, false⟩ :=
  c9_schedule_independent_of_end_power ⟨25, 50, false⟩ ⟨30, 50, false⟩ rfl rfl

/-- C10: the statistics aggregator is total on the empty slice: both
`unwrap_or` defaults give min = max = 0 ms, and the mean is the `f32`
division `0.0 / 0`, i.e. NaN; no panic occurs. -/
theorem c10_empty_aggregation_total :
    get_min_max_avg [] = (0, 0, F32.nan) := by
  simp [get_min_max_avg, ns_to_ms, F32.div]

/-- C6: on every non-empty duration sequence the aggregator's mean is the
finite value `mean_ms` (sum over length, in milliseconds) and satisfies
min ≤ mean ≤ max; in particular `[10ms, 20ms, 30ms]` aggregates to
`(min = 10, max = 30, mean = 20)`. -/
theorem c6_min_mean_max :
    (∀ values : List ℕ, values ≠ [] →
        (get_min_max_avg values).2.2 = F32.finite (mean_ms values) ∧
        (get_min_max_avg values).1 ≤ mean_ms values ∧
        mean_ms values ≤ (get_min_max_avg values).2.1) ∧
    get_min_max_avg [10000000, 20000000, 30000000] = (10, 30, F32.finite 20) := by
  constructor
  · intro values hne
    have hm : ∀ x ∈ values, values.min?.getD 0 ≤ x :=
      fun x hx => List.min?_getD_le_of_mem hx
    have hM : ∀ x ∈ values, x ≤ values.max?.getD 0 :=
      fun x hx => List.le_max?_getD_of_mem hx
    have h1 : values.length * values.min?.getD 0 ≤ values.sum :=
      length_mul_le_sum _ _ hm
    have h2 : values.sum ≤ values.length * values.max?.getD 0 :=
      sum_le_length_mul _ _ hM
    have hlen : 0 < (values.length : ℚ) := by
      have : 0 < values.length := List.length_pos.mpr hne
      exact_mod_cast this
    refine ⟨get_min_max_avg_nonempty values hne, ?_, ?_⟩
    · show ns_to_ms (values.min?.getD 0) ≤ mean_ms values
      simp only [mean_ms, ns_to_ms]
      rw [div_div, div_le_div_iff₀ (by norm_num) (by positivity)]
      have h1q : (values.length : ℚ) * (values.min?.getD 0 : ℚ) ≤ (values.sum : ℚ) := by
        exact_mod_cast h1
      nlinarith [h1q, hlen]
    · show mean_ms values ≤ ns_to_ms (values.max?.getD 0)
      simp only [mean_ms, ns_to_ms]
      rw [div_div, div_le_div_iff₀ (by positivity) (by norm_num)]
      have h2q : (values.sum : ℚ) ≤ (values.length : ℚ) * (values.max?.getD 0 : ℚ) := by
        exact_mod_cast h2
      nlinarith [h2q, hlen]
  · norm_num [get_min_max_avg, ns_to_ms, F32.div]

/-- C6 witness: the general bound instantiated on `[10ms, 20ms, 30ms]`. -/
theorem c6_min_mean_max_witness :
    (get_min_max_avg [10000000, 20000000, 30000000]).2.2 =
        F32.finite (mean_ms [10000000, 20000000, 30000000]) ∧
    (get_min_max_avg [10000000, 20000000, 30000000]).1 ≤
        mean_ms [10000000, 20000000, 30000000] ∧
    mean_ms [10000000, 20000000, 30000000] ≤
        (get_min_max_avg [10000000, 20000000, 30000000]).2.1 :=
  c6_min_mean_max.1 [10000000, 20000000, 30000000] (by decide)

/-- C7: the bandwidth computed by `add_measurement` is
`size_in_MiB / mean_seconds` (the code's `data_size_mb / avg * 1000.0` with
`avg` in milliseconds), and when the mean duration is zero for a positive
size the `f32` division yields the non-finite sentinel `+∞` — the
computation is total and never traps. -/
theorem c7_bandwidth_sentinel :
    (∀ (ds : ℕ) (timings : List ℕ), timings ≠ [] → timings.sum = 0 → 0 < ds →
        bandwidth ds timings = F32.inf ∧ (bandwidth ds timings).isFinite = false) ∧
    (∀ (ds : ℕ) (timings : List ℕ), timings ≠ [] → 0 < timings.sum →
        bandwidth ds timings =
          F32.finite (data_size_mb ds / (mean_ms timings / 1000))) := by
  constructor
  · intro ds timings hne hsum hds
    have havg := get_min_max_avg_nonempty timings hne
    have hmean : mean_ms timings = 0 := by
      unfold mean_ms ns_to_ms
      rw [hsum]
      norm_num
    rw [hmean] at havg
    have hmb : 0 < data_size_mb ds := by
      unfold data_size_mb
      have : (0:ℚ) < (ds : ℚ) := by exact_mod_cast hds
      positivity
    constructor
    · unfold bandwidth
      rw [havg]
      simp [F32.div, F32.mul, hmb]
    · unfold bandwidth
      rw [havg]
      simp [F32.div, F32.mul, hmb, F32.isFinite]
  · intro ds timings hne hsum
    have havg := get_min_max_avg_nonempty timings hne
    have hlen : 0 < (timings.length : ℚ) := by
      have : 0 < timings.length := List.length_pos.mpr hne
      exact_mod_cast this
    have hmean : 0 < mean_ms timings := by
      unfold mean_ms ns_to_ms
      have : (0:ℚ) < (timings.sum : ℚ) := by exact_mod_cast hsum
      positivity
    unfold bandwidth
    rw [havg]
    rw [show F32.div (F32.finite (data_size_mb ds)) (F32.finite (mean_ms timings)) =
          F32.finite (data_size_mb ds / mean_ms timings) from by
        simp [F32.div, ne_of_gt hmean]]
    rw [show F32.mul (F32.finite (data_size_mb ds / mean_ms timings)) (F32.finite 1000) =
          F32.finite (data_size_mb ds / mean_ms timings * 1000) from rfl]
    congr 1
    rw [div_div_eq_mul_div, div_mul_eq_mul_div, mul_comm]

/-- C7 witness: all-zero durations at size 100 give `+∞`; the successful
scenario `[10ms, 20ms, 30ms]` at size 1 MiB gives the finite
`size_in_MiB / mean_seconds` value. -/
theorem c7_bandwidth_sentinel_witness :
    (bandwidth 100 [0, 0] = F32.inf ∧ (bandwidth 100 [0, 0]).isFinite = false) ∧
    bandwidth 1048576 [10000000, 20000000, 30000000] =
      F32.finite (data_size_mb 1048576 / (mean_ms [10000000, 20000000, 30000000] / 1000)) :=
  ⟨c7_bandwidth_sentinel.1 100 [0, 0] (by decide) (by decide) (by decide),
   c7_bandwidth_sentinel.2 1048576 [10000000, 20000000, 30000000] (by decide) (by decide)⟩

/-- C1 counterexample: the zero-duration-on-failure rule does not hold for
the upload phase.  In `failed_upload_env` the upload completion signal
reports failure while the host timer reads 5 ns at the end of the block,
and the recorded upload duration is that elapsed time, not zero (the
upload block of `execute_gpu` ends with `start.elapsed()` on both
branches). -/
theorem c1_upload_failure_counterexample :
    failed_upload_env.upload_ok = false ∧
    upload_time failed_upload_env = 5 ∧
    (upload_time failed_upload_env == 0) = false := by
  decide

/-- C1 (amended): a completion-signal failure zeroes the recorded duration
for the device-to-device and download phases, while the upload phase
records the host elapsed time of the failed attempt; in every case the
sweep continues rather than aborting (with verification off, the trial
loop always completes), and a download failure in one trial out of ten
leaves ten recorded download durations with a zero at the failed
position. -/
theorem c1_failure_handling_amended :
    (∀ env : GpuEnv, env.gpu_ok = false → gpu_gpu_time env = 0) ∧
    (∀ env : GpuEnv, env.download_ok = false → download_time env = 0) ∧
    (∀ env : GpuEnv, upload_time env = env.upload_elapsed) ∧
    (∀ (envs : List GpuEnv) (expected : ℕ),
        (run_trials envs expected false).isSome = true) ∧
    run_trials c1_envs 0 false =
      some (List.replicate 10 1000000, List.replicate 10 500000,
        [800000, 800000, 800000, 800000, 0, 800000, 800000, 800000, 800000, 800000]) := by
  refine ⟨fun env h => by simp [gpu_gpu_time, h], fun env h => by simp [download_time, h],
    fun env => rfl, ?_, by decide⟩
  intro envs expected
  induction envs with
  | nil => rfl
  | cons e rest ih =>
      obtain ⟨r, hr⟩ := Option.isSome_iff_exists.mp ih
      obtain ⟨us, gs, ds⟩ := r
      simp [run_trials, execute_gpu, hr]

/-- C1 witness: the amended failure-handling facts at concrete trials. -/
theorem c1_failure_handling_amended_witness :
    gpu_gpu_time { good_env with gpu_ok := false } = 0 ∧
    download_time failed_download_env = 0 ∧
    upload_time failed_upload_env = failed_upload_env.upload_elapsed ∧
    (run_trials [failed_upload_env] 7 false).isSome = true :=
  ⟨c1_failure_handling_amended.1 { good_env with gpu_ok := false } rfl,
   c1_failure_handling_amended.2.1 failed_download_env rfl,
   c1_failure_handling_amended.2.2.1 failed_upload_env,
   c1_failure_handling_amended.2.2.2.1 [failed_upload_env] 7⟩

/-- C2: with verification enabled and a successful download, `execute_gpu`
panics exactly when the byte sum of the downloaded data differs from
`expected_sum = iteration * data_size`; for size 100 and iteration 3 a
buffer of one hundred bytes of value 3 sums to 300 and passes, while the
same buffer with any single byte changed fails. -/
theorem c2_verification :
    (∀ (env : GpuEnv) (expected : ℕ), env.download_ok = true →
        (execute_gpu env expected true = none ↔
          (verify_total env.download_data == expected) = false)) ∧
    (execute_gpu (mk_download_env (List.replicate 100 3))
        (expected_sum 3 100) true).isSome = true ∧
    (∀ i v : ℕ, i < 100 → v < 256 → v ≠ 3 →
        execute_gpu (mk_download_env ((List.replicate 100 3).set i v))
          (expected_sum 3 100) true = none) := by
  refine ⟨?_, by decide, ?_⟩
  · intro env expected hdl
    cases hbeq : (verify_total env.download_data == expected) with
    | true => simp [execute_gpu, hdl, hbeq]
    | false => simp [execute_gpu, hdl, hbeq]
  · intro i v hi _hv hv3
    have hsum : ((List.replicate 100 3).set i v).sum = 297 + v := by
      have hlen : i < (List.replicate 100 3).length := by simpa using hi
      have hgd : (List.replicate 100 3).getD i 0 = 3 := replicate_getD 100 3 i hi
      have hrs : (List.replicate 100 3).sum = 300 := by decide
      have := sum_set_add_getD (List.replicate 100 3) i v hlen
      omega
    have hne : (((List.replicate 100 3).set i v).sum == expected_sum 3 100) = false := by
      rw [hsum]
      exact beq_eq_false_iff_ne.mpr (by unfold expected_sum; omega)
    have hdlk : (mk_download_env ((List.replicate 100 3).set i v)).download_ok = true := rfl
    have hdd : (mk_download_env ((List.replicate 100 3).set i v)).download_data =
        (List.replicate 100 3).set i v := rfl
    simp only [execute_gpu, hdlk, hdd, verify_total, hne, Bool.true_and, Bool.and_true,
      Bool.not_false, if_true]

/-- C2 witness: the panic criterion at a concrete environment, and the
corruption scenario with byte 0 changed from 3 to 7. -/
theorem c2_verification_witness :
    (execute_gpu (mk_download_env [5]) 4 true = none ↔
      (verify_total [5] == 4) = false) ∧
    execute_gpu (mk_download_env ((List.replicate 100 3).set 0 7))
      (expected_sum 3 100) true = none :=
  ⟨c2_verification.1 (mk_download_env [5]) 4 rfl,
   c2_verification.2.2 0 7 (by decide) (by decide) (by decide)⟩

/-- C3 counterexample: the reported device-to-device duration is not the
elapsed time of the host monotonic timer.  In `good_env` the GPU timestamp
query spans 500000 ns while the host timer would read 600000 ns at the end
of the block, and the recorded duration is the 500000 ns timestamp delta
(`Duration::from_nanos(data.end - data.start)`; the host `start.elapsed()`
is commented out in the source). -/
theorem c3_gpu_phase_timer_counterexample :
    good_env.gpu_ok = true ∧
    gpu_gpu_time good_env = 500000 ∧
    good_env.gpu_elapsed = 600000 ∧
    (gpu_gpu_time good_env == good_env.gpu_elapsed) = false := by
  decide

/-- C3 (amended): the upload duration is the host monotonic elapsed time
spanning submission through confirmed completion (and the following copy);
the download duration is likewise the host elapsed time on success; the
device-to-device duration, however, is the difference of the two GPU
timestamps written around the copy command (wrapping `u64` subtraction),
not a host timer reading. -/
theorem c3_phase_timing_amended :
    (∀ env : GpuEnv, upload_time env = env.upload_elapsed) ∧
    (∀ env : GpuEnv, env.download_ok = true → download_time env = env.download_elapsed) ∧
    (∀ env : GpuEnv, env.gpu_ok = true →
        gpu_gpu_time env =
          (env.ts_end % 2 ^ 64 + 2 ^ 64 - env.ts_start % 2 ^ 64) % 2 ^ 64) :=
  ⟨fun _ => rfl,
   fun env h => by simp [download_time, h],
   fun env h => by simp [gpu_gpu_time, h]⟩

/-- C3 witness: the three phase-duration characterisations at the fully
successful trial `good_env`. -/
theorem c3_phase_timing_amended_witness :
    upload_time good_env = good_env.upload_elapsed ∧
    download_time good_env = good_env.download_elapsed ∧
    gpu_gpu_time good_env =
      (good_env.ts_end % 2 ^ 64 + 2 ^ 64 - good_env.ts_start % 2 ^ 64) % 2 ^ 64 :=
  ⟨c3_phase_timing_amended.1 good_env,
   c3_phase_timing_amended.2.1 good_env rfl,
   c3_phase_timing_amended.2.2 good_env rfl⟩
